import Mathlib

/-!
Verification development for the sim-os process-scheduler simulator.

The scheduler engine (src/simulations/Scheduler.hpp) and the DSL
interpreter (src/lang/Interpreter.hpp) are embedded shallowly below:
machine integers (std::size_t) become Nat, floating point quantities
(resource_usage, cpu_usage, throughput) become Rat (the claims checked
here only copy, zero, or compare these quantities, never rely on IEEE
rounding), std::deque / std::vector become List (front = head),
std::shared_ptr<Process> handles become Process values moved between
queues (the engine keeps each live process in exactly one queue at a
time, and finished processes are no longer mutated, so value passing
is faithful), and loops whose termination is not structural carry
explicit fuel.  The types declared in os/Os.hpp and the helpers of
Util.hpp are not under src/; they are modelled from the spec and are
marked as such in their doc comments.
-/

namespace SimOs

/-- Modelled from the spec: `Os::EventKind` (os/Os.hpp is not under src/).
Tagged enumeration with exactly two variants `Cpu` and `Io`; the `Count`
sentinel only aids exhaustiveness checks and is not part of the data model. -/
inductive EventKind
  | Cpu
  | Io
deriving DecidableEq, Repr

/-- Modelled from the spec: `Os::Event` (os/Os.hpp is not under src/).
`duration` is an unsigned tick count, `resource_usage` a fractional usage
figure (a float in the source, embedded as Rat). -/
structure Event where
  kind : EventKind
  duration : Nat
  resource_usage : Rat
deriving DecidableEq, Repr

/-- Modelled from the spec: `Os::Process` (os/Os.hpp is not under src/).
`events` is the ordered queue of events (head = front), `start_time` and
`finish_time` are optional ticks, absent at spawn. -/
structure Process where
  name : String
  pid : Nat
  arrival : Nat
  events : List Event
  start_time : Option Nat
  finish_time : Option Nat
deriving DecidableEq, Repr

/-- Source: `enum class SchedulePolicy` (Scheduler.hpp); the `Count`
sentinel is excluded as it only aids exhaustiveness checks. -/
inductive SchedulePolicy
  | FirstComeFirstServed
  | RoundRobin
deriving DecidableEq, Repr

/-- Source: `using ScheduleFn = std::function<void(Scheduler&)>`.  The only
schedule callbacks the program ever constructs are `FirstComeFirstServedPolicy`
and `RoundRobinPolicy{quantum}` (both via `named_scheduler_from_policy`), so the
function type is embedded as this closed type, interpreted by `applySchedule`. -/
inductive ScheduleFn
  | firstComeFirstServed
  | roundRobin (quantum : Nat)
deriving DecidableEq, Repr

/-- Source: `struct NamedSchedulePolicy` (Scheduler.hpp). -/
structure NamedSchedulePolicy where
  callback : ScheduleFn
  kind : SchedulePolicy
  name : String
deriving DecidableEq, Repr

/-- Source: `constexpr static auto MAX_THREADS = 9` (Scheduler.hpp). -/
def MAX_THREADS : Nat := 9

/-- The value `std::numeric_limits<std::size_t>::max()` used to default the
configuration bounds of the scheduler. -/
def SIZE_T_MAX : Nat := 2 ^ 64 - 1

/-- Source: `struct Scheduler` (Scheduler.hpp).  The per-core
`std::array<_, MAX_THREADS>` members are embedded as lists of length
`MAX_THREADS`; `processes` is the pending queue of each core. -/
structure Scheduler where
  running : List (Option Process)
  processes : List (List Process)
  waiting : List (List Process)
  ready : List (List Process)
  schedule_policy : NamedSchedulePolicy
  timer : Nat
  cpu_usage : List Rat
  max_processes : Nat
  max_events_per_process : Nat
  max_single_event_duration : Nat
  max_arrival_time : Nat
  threads_count : Nat
  next_thread : Nat
  throughput : Rat
  previous_finished_count : Nat
  finished : List Process
  processes_backup : List (List Process)
  valid_backup : Bool
deriving DecidableEq, Repr

/-- Source: the `Scheduler(Policy policy)` constructor together with the
in-class member initialisers of Scheduler.hpp. -/
def mkScheduler (policy : NamedSchedulePolicy) : Scheduler where
  running := List.replicate MAX_THREADS none
  processes := List.replicate MAX_THREADS []
  waiting := List.replicate MAX_THREADS []
  ready := List.replicate MAX_THREADS []
  schedule_policy := policy
  timer := 0
  cpu_usage := List.replicate MAX_THREADS 0
  max_processes := SIZE_T_MAX
  max_events_per_process := SIZE_T_MAX
  max_single_event_duration := SIZE_T_MAX
  max_arrival_time := SIZE_T_MAX
  threads_count := MAX_THREADS
  next_thread := 0
  throughput := 0
  previous_finished_count := 0
  finished := []
  processes_backup := List.replicate MAX_THREADS []
  valid_backup := false

/-- Source: `Scheduler::switch_schedule_policy`. -/
def switch_schedule_policy (s : Scheduler) (policy : NamedSchedulePolicy) : Scheduler :=
  { s with schedule_policy := policy }

/-- Source: `Scheduler::complete` — true iff no core is running and every
pending, ready and waiting queue is empty (checked over all `MAX_THREADS`
array slots, exactly like the `std::ranges::any_of` calls in the source). -/
def complete (s : Scheduler) : Bool :=
  let any_running := s.running.any fun p => !p.isNone
  let any_processes := s.processes.any fun q => !q.isEmpty
  let any_ready := s.ready.any fun q => !q.isEmpty
  let any_waiting := s.waiting.any fun q => !q.isEmpty
  !any_running && !any_processes && !any_ready && !any_waiting

/-- Source: `Scheduler::ensure_pid_is_unique` — `pid` must differ from the
running process of core `tid` and from every process of its ready and
waiting queues. -/
def ensure_pid_is_unique (s : Scheduler) (tid : Nat) (pid : Nat) : Bool :=
  (match s.running.getD tid none with
   | none => true
   | some p => p.pid != pid)
  && (s.ready.getD tid []).all (fun p => p.pid != pid)
  && (s.waiting.getD tid []).all (fun p => p.pid != pid)

/-- Source: `Scheduler::dispatch_process_by_first_event`.  The source asserts
that `events` is non-empty (all callers guarantee it); on an empty queue this
embedding returns the state unchanged.  Note the `start_time` assignment is
embedded exactly as written in the source: when `start_time` already holds a
value the assignment stores `nullopt`, clearing it. -/
def dispatch_process_by_first_event (tid : Nat) (p : Process) (s : Scheduler) : Scheduler :=
  match p.events with
  | [] => s
  | e :: _ =>
    match e.kind with
    | EventKind.Cpu =>
        let p := { p with start_time := if p.start_time.isNone then some s.timer else none }
        { s with ready := s.ready.set tid ((s.ready.getD tid []) ++ [p]) }
    | EventKind.Io =>
        { s with waiting := s.waiting.set tid ((s.waiting.getD tid []) ++ [p]) }

/-- Source: the iterator loop of `Scheduler::sidetrack_processes`.  `kept` is
the prefix of the pending deque already passed over (`++it` without erasing),
`rest` is the remainder starting at the current iterator.  The two rejection
branches of the source execute `continue` WITHOUT advancing the iterator or
erasing the element, so the loop re-examines the same process forever; the
fuel argument makes that divergence observable as `none`.  A dispatched
process is pushed to ready or waiting and erased from the pending deque. -/
def sidetrackGo (tid : Nat) : Nat → List Process → List Process → Scheduler →
    Option (List Process × Scheduler)
  | _, kept, [], s => some (kept, s)
  | 0, _, _ :: _, _ => none
  | fuel + 1, kept, p :: rest, s =>
    if p.arrival != s.timer then
      sidetrackGo tid fuel (kept ++ [p]) rest s
    else if !ensure_pid_is_unique s tid p.pid then
      sidetrackGo tid fuel kept (p :: rest) s
    else if p.events.isEmpty then
      sidetrackGo tid fuel kept (p :: rest) s
    else
      sidetrackGo tid fuel kept rest (dispatch_process_by_first_event tid p s)

/-- Source: `Scheduler::sidetrack_processes`.  The fuel `length + 1` is enough
for every terminating run of the source loop (each productive iteration
consumes one element of `rest`); the result is `none` exactly when the source
loop never terminates. -/
def sidetrack_processes (tid : Nat) (s : Scheduler) : Option Scheduler :=
  (sidetrackGo tid ((s.processes.getD tid []).length + 1) [] (s.processes.getD tid []) s).map
    fun r => { r.2 with processes := r.2.processes.set tid r.1 }

/-- Source: the loop body of `Scheduler::update_waiting_list`, returning the
processes kept in the waiting queue, the processes to re-dispatch after the
loop, and the processes newly finished, in iteration order.  The source
asserts the head event is `Io` with positive duration; the decrement is
embedded as the corresponding Nat subtraction.  Note the `finish_time`
assignment is embedded exactly as written, clearing the field when it is
already set. -/
def updateWaitingGo (timer : Nat) : List Process →
    List Process × List Process × List Process
  | [] => ([], [], [])
  | p :: rest =>
    match p.events with
    | [] =>
      -- unreachable: the source asserts the event queue is non-empty
      let (k, d, f) := updateWaitingGo timer rest
      (p :: k, d, f)
    | e :: tail =>
      let d1 := e.duration - 1
      if d1 = 0 then
        if tail.isEmpty then
          let p2 := { p with events := [],
                             finish_time := if p.finish_time.isNone then some timer else none }
          let (k, d, f) := updateWaitingGo timer rest
          (k, d, p2 :: f)
        else
          let p2 := { p with events := tail }
          let (k, d, f) := updateWaitingGo timer rest
          (k, p2 :: d, f)
      else
        let p2 := { p with events := { e with duration := d1 } :: tail }
        let (k, d, f) := updateWaitingGo timer rest
        (p2 :: k, d, f)

/-- Source: `Scheduler::update_waiting_list`: decrement the head IO event of
every waiting process, re-dispatch those whose event completed with events
remaining, finish those whose queue became empty. -/
def update_waiting_list (tid : Nat) (s : Scheduler) : Scheduler :=
  (updateWaitingGo s.timer (s.waiting.getD tid [])).2.1.foldl
    (fun st p => dispatch_process_by_first_event tid p st)
    { s with waiting := s.waiting.set tid (updateWaitingGo s.timer (s.waiting.getD tid [])).1,
             finished := s.finished ++ (updateWaitingGo s.timer (s.waiting.getD tid [])).2.2 }

/-- Source: `Scheduler::update_running`: decrement the head CPU event of the
running process of core `tid`; on zero pop it and either re-dispatch (events
remain) or append to `finished` — note the source does NOT set `finish_time`
on this path — and clear the running slot. -/
def update_running (tid : Nat) (s : Scheduler) : Scheduler :=
  match s.running.getD tid none with
  | none => s
  | some p =>
    match p.events with
    | [] => s -- unreachable: the source asserts the event queue is non-empty
    | e :: tail =>
      let d1 := e.duration - 1
      if d1 = 0 then
        if tail.isEmpty then
          let s := { s with finished := s.finished ++ [{ p with events := [] }] }
          { s with running := s.running.set tid none }
        else
          let s := dispatch_process_by_first_event tid { p with events := tail } s
          { s with running := s.running.set tid none }
      else
        { s with running := s.running.set tid (some { p with events := { e with duration := d1 } :: tail }) }

/-- Source: the core loop of `FirstComeFirstServedPolicy::operator()`.  The
loop RETURNS from the whole function at the first core whose ready queue is
empty, and stores the popped front into `running[tid]` unconditionally, even
when that slot is occupied. -/
def fcfsGo : Nat → Nat → Scheduler → Scheduler
  | 0, _, s => s
  | k + 1, tid, s =>
    match s.ready.getD tid [] with
    | [] => s
    | p :: rest =>
      fcfsGo k (tid + 1) { s with ready := s.ready.set tid rest,
                                  running := s.running.set tid (some p) }

/-- Source: `FirstComeFirstServedPolicy::operator()` over cores `0 ..
threads_count - 1`. -/
def fcfs_apply (s : Scheduler) : Scheduler :=
  fcfsGo s.threads_count 0 s

/-- Source: the core loop of `RoundRobinPolicy::operator()`: pop the front of
each ready queue into the running slot (returning from the whole function at
the first empty ready queue); when the head CPU event exceeds the quantum,
shrink it by the quantum and push a synthetic CPU event of duration `quantum`
in front of it. -/
def rrGo (quantum : Nat) : Nat → Nat → Scheduler → Scheduler
  | 0, _, s => s
  | k + 1, tid, s =>
    match s.ready.getD tid [] with
    | [] => s
    | p :: rest =>
      let s := { s with ready := s.ready.set tid rest }
      match p.events with
      | [] =>
        -- unreachable: the source asserts the event queue is non-empty
        rrGo quantum k (tid + 1) { s with running := s.running.set tid (some p) }
      | e :: tail =>
        if quantum < e.duration then
          let shrunk := { e with duration := e.duration - quantum }
          let synthetic : Event :=
            { kind := EventKind.Cpu, duration := quantum, resource_usage := e.resource_usage }
          let p2 := { p with events := synthetic :: shrunk :: tail }
          rrGo quantum k (tid + 1) { s with running := s.running.set tid (some p2) }
        else
          rrGo quantum k (tid + 1) { s with running := s.running.set tid (some p) }

/-- Source: `RoundRobinPolicy::operator()` over cores `0 .. threads_count - 1`. -/
def rr_apply (quantum : Nat) (s : Scheduler) : Scheduler :=
  rrGo quantum s.threads_count 0 s

/-- Interprets the closed set of schedule callbacks (see `ScheduleFn`). -/
def applySchedule : ScheduleFn → Scheduler → Scheduler
  | ScheduleFn.firstComeFirstServed, s => fcfs_apply s
  | ScheduleFn.roundRobin q, s => rr_apply q s

/-- Source: line 157 of `Scheduler::step`: invoke the policy when the core
is idle. -/
def invoke_policy (tid : Nat) (s : Scheduler) : Scheduler :=
  if (s.running.getD tid none).isNone then applySchedule s.schedule_policy.callback s else s

/-- Source: lines 158-161 of `Scheduler::step`: the safety net moving the
ready front into the still-empty running slot. -/
def safety_net (tid : Nat) (s : Scheduler) : Scheduler :=
  if (s.running.getD tid none).isNone then
    match s.ready.getD tid [] with
    | [] => s
    | p :: rest => { s with running := s.running.set tid (some p), ready := s.ready.set tid rest }
  else s

/-- Source: lines 157-161 of `Scheduler::step`: policy invocation followed by
the safety net. -/
def policy_phase (tid : Nat) (s : Scheduler) : Scheduler :=
  safety_net tid (invoke_policy tid s)

/-- Source: lines 163-166 of `Scheduler::step`: copy the running process's
current resource usage into the core's cpu_usage slot. -/
def observe_cpu (tid : Nat) (s : Scheduler) : Scheduler :=
  match s.running.getD tid none with
  | some p =>
    match p.events with
    | e :: _ => { s with cpu_usage := s.cpu_usage.set tid e.resource_usage }
    | [] => s
  | none => s

/-- Source: line 168 of `Scheduler::step`: `if (complete()) cpu_usage.fill(0)`. -/
def zero_cpu_on_complete (s : Scheduler) : Scheduler :=
  if complete s then { s with cpu_usage := List.replicate MAX_THREADS 0 } else s

/-- Source: lines 170-171 of `Scheduler::step`: the throughput and
previous_finished_count bookkeeping closing every per-core iteration. -/
def bookkeep (s : Scheduler) : Scheduler :=
  { s with
    throughput := if s.timer != 0 then (s.finished.length : Rat) / (s.timer : Rat) else 0,
    previous_finished_count := s.finished.length }

/-- Source: the body of the per-core loop of `Scheduler::step` for core `tid`:
arrival dispatch, waiting service, running service, policy application with
the safety net, the cpu_usage observation, the cpu_usage zeroing on
completion and the throughput bookkeeping.  `none` records that
`sidetrack_processes` did not terminate. -/
def stepThread (s : Scheduler) (tid : Nat) : Option Scheduler := do
  let s ← sidetrack_processes tid s
  let s := update_waiting_list tid s
  let s := update_running tid s
  let s := policy_phase tid s
  let s := observe_cpu tid s
  let s := zero_cpu_on_complete s
  pure (bookkeep s)

/-- The per-core loop of `Scheduler::step`: `k` cores remain, starting at
core index `tid`. -/
def stepLoop : Nat → Nat → Scheduler → Option Scheduler
  | 0, _, s => some s
  | k + 1, tid, s => (stepThread s tid).bind (stepLoop k (tid + 1))

/-- Source: `Scheduler::step` — mark the backup valid, process every core in
index order, then increment the timer.  `none` records the divergence of the
source's sidetrack loop. -/
def step (s : Scheduler) : Option Scheduler :=
  let s := { s with valid_backup := true }
  (stepLoop s.threads_count 0 s).map fun r => { r with timer := r.timer + 1 }

/-- Iterated `step`. -/
def stepN : Nat → Scheduler → Option Scheduler
  | 0, s => some s
  | n + 1, s => (step s).bind (stepN n)

/-- Source: `Scheduler::emplace_process` — construct the process in the
pending queue of core `next_thread`, append a deep copy to the backup while
`valid_backup` is still false, and advance `next_thread` modulo
`threads_count`. -/
def emplace_process (s : Scheduler) (name : String) (pid arrival : Nat)
    (events : List Event) : Scheduler :=
  let p : Process := ⟨name, pid, arrival, events, none, none⟩
  let s := { s with processes := s.processes.set s.next_thread
                      ((s.processes.getD s.next_thread []) ++ [p]) }
  let s := if !s.valid_backup then
             { s with processes_backup := s.processes_backup.set s.next_thread
                        ((s.processes_backup.getD s.next_thread []) ++ [p]) }
           else s
  { s with next_thread := (s.next_thread + 1) % s.threads_count }

/-- Appends each backup queue to the pending queue of the same core index,
exactly like the zipped loop of `Scheduler::restart` (which `push_back`s the
backup copies WITHOUT clearing the pending queues first). -/
def restartFill : List (List Process) → List (List Process) → List (List Process)
  | [], _ => []
  | ps, [] => ps
  | p :: ps, b :: bs => (p ++ b) :: restartFill ps bs

/-- Source: `Scheduler::restart` — reset timer, next_thread, throughput,
previous_finished_count, clear finished, and append fresh copies of the
backup to the pending queues.  The source asserts `valid_backup`. -/
def restart (s : Scheduler) : Scheduler :=
  let s := { s with timer := 0, next_thread := 0, throughput := 0,
                    previous_finished_count := 0, finished := [] }
  { s with processes := restartFill s.processes s.processes_backup }

/-- Source: `Scheduler::average_waiting_time` — mean over `finished` of
`start_time - arrival`, skipping processes without a `start_time`; 0 when
`finished` is empty. -/
def average_waiting_time (s : Scheduler) : Nat :=
  if s.finished.isEmpty then 0
  else
    (s.finished.foldl
      (fun acc p =>
        match p.start_time with
        | none => acc
        | some st => acc + (st - p.arrival)) 0) / s.finished.length

/-- Source: `Scheduler::average_turnaround_time` — mean over `finished` of
`finish_time - arrival`, skipping processes without a `finish_time`; 0 when
`finished` is empty. -/
def average_turnaround_time (s : Scheduler) : Nat :=
  if s.finished.isEmpty then 0
  else
    (s.finished.foldl
      (fun acc p =>
        match p.finish_time with
        | none => acc
        | some ft => acc + (ft - p.arrival)) 0) / s.finished.length

/-- Source: `Scheduler::average_cpu_usage` — mean of the first
`threads_count` cpu_usage entries. -/
def average_cpu_usage (s : Scheduler) : Rat :=
  ((List.range s.threads_count).foldl (fun acc i => acc + s.cpu_usage.getD i 0) 0)
    / (s.threads_count : Rat)

/-- Source: `try_policy_from_str` (Scheduler.hpp), the six-entry name map. -/
def try_policy_from_str (str : String) : Option SchedulePolicy :=
  match str with
  | "FCFS" => some SchedulePolicy.FirstComeFirstServed
  | "FIFO" => some SchedulePolicy.FirstComeFirstServed
  | "FirstComeFirstServed" => some SchedulePolicy.FirstComeFirstServed
  | "FirstInFirstOut" => some SchedulePolicy.FirstComeFirstServed
  | "RR" => some SchedulePolicy.RoundRobin
  | "RoundRobin" => some SchedulePolicy.RoundRobin
  | _ => none

/-- Source: `policy_name_from_kind` (Scheduler.hpp). -/
def policy_name_from_kind : SchedulePolicy → String
  | SchedulePolicy.FirstComeFirstServed => "First Come First Served"
  | SchedulePolicy.RoundRobin => "Round Robin"

/-- Source: `named_scheduler_from_policy` (Scheduler.hpp) with no extra
policy arguments, as called by the interpreter: the Round-Robin quantum
takes its default value 5. -/
def named_scheduler_from_policy (policy : SchedulePolicy) : NamedSchedulePolicy :=
  match policy with
  | SchedulePolicy.FirstComeFirstServed =>
      ⟨ScheduleFn.firstComeFirstServed, policy, policy_name_from_kind policy⟩
  | SchedulePolicy.RoundRobin =>
      ⟨ScheduleFn.roundRobin 5, policy, policy_name_from_kind policy⟩

/-! ## The DSL interpreter (src/lang/Interpreter.hpp)

The lexer and parser are not needed by any claim; the embedding starts at the
AST that `Parser::parse` produces.  Expressions live in a flat list and are
referenced by `ExpressionId` indices, exactly like the source.  The source's
pseudo-random draws (`Util::random_float`, `Util::random_natural`, Util.hpp is
not under src/) are embedded as oracle function parameters consulted through a
draw cursor held in the interpreter state; no claim depends on the drawn
values. -/

/-- Source: `Interpreter::Value` — a tagged union of monostate (None),
string, unsigned and list of values. -/
inductive Value
  | monostate
  | str (s : String)
  | num (n : Nat)
  | list (values : List Value)
deriving Repr

mutual

/-- Decidable equality for `Value` (the nested list forces a manual
definition). -/
def Value.decEq : (a b : Value) → Decidable (a = b)
  | Value.monostate, Value.monostate => isTrue rfl
  | Value.monostate, Value.str _ => isFalse (by intro h; cases h)
  | Value.monostate, Value.num _ => isFalse (by intro h; cases h)
  | Value.monostate, Value.list _ => isFalse (by intro h; cases h)
  | Value.str _, Value.monostate => isFalse (by intro h; cases h)
  | Value.str a, Value.str b =>
      if h : a = b then isTrue (by rw [h]) else isFalse (by intro hh; cases hh; exact h rfl)
  | Value.str _, Value.num _ => isFalse (by intro h; cases h)
  | Value.str _, Value.list _ => isFalse (by intro h; cases h)
  | Value.num _, Value.monostate => isFalse (by intro h; cases h)
  | Value.num _, Value.str _ => isFalse (by intro h; cases h)
  | Value.num a, Value.num b =>
      if h : a = b then isTrue (by rw [h]) else isFalse (by intro hh; cases hh; exact h rfl)
  | Value.num _, Value.list _ => isFalse (by intro h; cases h)
  | Value.list _, Value.monostate => isFalse (by intro h; cases h)
  | Value.list _, Value.str _ => isFalse (by intro h; cases h)
  | Value.list _, Value.num _ => isFalse (by intro h; cases h)
  | Value.list a, Value.list b =>
      match Value.decEqList a b with
      | isTrue h => isTrue (by rw [h])
      | isFalse h => isFalse (by intro hh; cases hh; exact h rfl)

/-- Decidable equality for lists of `Value`. -/
def Value.decEqList : (a b : List Value) → Decidable (a = b)
  | [], [] => isTrue rfl
  | [], _ :: _ => isFalse (by intro h; cases h)
  | _ :: _, [] => isFalse (by intro h; cases h)
  | a :: as, b :: bs =>
      match Value.decEq a b with
      | isFalse h => isFalse (by intro hh; cases hh; exact h rfl)
      | isTrue h =>
        match Value.decEqList as bs with
        | isTrue h2 => isTrue (by rw [h, h2])
        | isFalse h2 => isFalse (by intro hh; cases hh; exact h2 rfl)

end

instance : DecidableEq Value := Value.decEq

/-- Expression identifier: an index into the flat expression list. -/
abbrev ExpressionId := Nat

/-- Source: the nine-variant `ExpressionKind` of the parser, with tokens
embedded as their lexemes.  `var` is the source's `Variable` variant,
`listExpr` its `List`, `forE` its `For`. -/
inductive ExpressionKind
  | call (name : String) (args : List ExpressionId)
  | stringLiteral (literal : String)
  | number (lexeme : String)
  | listExpr (elements : List ExpressionId)
  | tuple (elements : List ExpressionId)
  | var (name : String)
  | constant (name : String) (value : ExpressionId)
  | range (start_lexeme end_lexeme : String)
  | forE (binder : String) (range : ExpressionId) (body : List ExpressionId)
deriving DecidableEq, Repr

/-- Source: the `Ast` produced by the parser: a statement list (each
statement holding a top-level `ExpressionId`) and a flat expression list. -/
structure Ast where
  expressions : List ExpressionKind
  statements : List ExpressionId
deriving DecidableEq, Repr

/-- Source: `ast.expression_by_id`.  An out-of-range id is undefined
behaviour in the source (vector indexing); the parser only produces in-range
ids, so the default returned here is never relevant to a claim. -/
def expression_by_id (ast : Ast) (id : ExpressionId) : ExpressionKind :=
  ast.expressions.getD id (ExpressionKind.stringLiteral "")

/-- Parses a non-empty run of decimal digits, most significant first. -/
def digitsToNat : List Char → Nat → Option Nat
  | [], acc => some acc
  | c :: cs, acc =>
    if c.isDigit then digitsToNat cs (acc * 10 + (c.toNat - 48)) else none

/-- Modelled from the spec: `Util::parse_number` (Util.hpp is not under
src/): "fails if the lexeme does not parse as a non-negative integer". -/
def parse_number (lexeme : String) : Option Nat :=
  if lexeme.data.isEmpty then none else digitsToNat lexeme.data 0

/-- Modelled from the spec: `Os::event_kind_try_from_str` (os/Os.hpp is not
under src/): recognised event-kind strings are exactly "Cpu" and "Io",
case-sensitive. -/
def event_kind_try_from_str (str : String) : Option EventKind :=
  match str with
  | "Cpu" => some EventKind.Cpu
  | "Io" => some EventKind.Io
  | _ => none

/-- Source: `Interpreter::is_builtin`. -/
def is_builtin (name : String) : Bool :=
  name == "spawn_process" || name == "spawn_random_process"

/-- The mutable context of the tree-walking interpreter: the scheduler the
builtins act on, the diagnostics written to stderr (in order), the static
`spawned_pids` vector of `spawn_random_process_builtin`, and the cursor into
the pseudo-random streams. -/
structure InterpState where
  sim : Scheduler
  log : List String
  spawned_pids : List Nat
  rand_cursor : Nat
deriving DecidableEq, Repr

/-- Source: `Interpreter::report_error` — prints an `[ERROR] (interpreter)`
line to stderr and yields `std::nullopt` at the call site. -/
def report_error (st : InterpState) (msg : String) : InterpState :=
  { st with log := st.log ++ ["ERROR (interpreter) " ++ msg] }

/-- Source: `Interpreter::report_note` — prints a `[NOTE] (interpreter)` line
to stderr and yields `std::nullopt` at the call site. -/
def report_note (st : InterpState) (msg : String) : InterpState :=
  { st with log := st.log ++ ["NOTE (interpreter) " ++ msg] }

/-- Source: `Interpreter::report_function_call_mismatched_argc`.  The message
template hard-codes "expected 4 arguments" for every builtin, as in the
source. -/
def report_function_call_mismatched_argc (st : InterpState) (name : String)
    (got : Nat) : InterpState :=
  report_error st ("failed to interpret call to builtin " ++ name ++
    ": expected 4 arguments, " ++ toString got ++ " were provided")

/-- The note line printed by the event-tuple conversion and by the events
argument type check. -/
def events_shape_note : String :=
  "(e.g. [(event_type: Io or Cpu, duration: int)])"

/-- Outcome of `Interpreter::list_as_events_deque`: `ok` on success,
`rejected` when a diagnostic was reported and `std::nullopt` returned, `oob`
when the source indexes `tuple[0]` or `tuple[1]` out of bounds (undefined
behaviour: the conversion never checks the element count of a tuple). -/
inductive EventsResult
  | ok (events : List Event)
  | rejected
  | oob
deriving DecidableEq, Repr

/-- Source: the loop of `Interpreter::list_as_events_deque`.  Each element
must be a value list; its element 0 is read (unchecked indexing) and must be
a string, its element 1 is read (unchecked indexing) and must be a number,
and the string must name an event kind.  Each accepted event draws one
`Util::random_float`, clamped below at 0.01. -/
def listAsEventsGo (randf : Nat → Rat) : InterpState → List Value → List Event →
    InterpState × EventsResult
  | st, [], acc => (st, EventsResult.ok acc)
  | st, v :: rest, acc =>
    match v with
    | Value.list tuple =>
      match tuple.get? 0 with
      | none => (st, EventsResult.oob)
      | some t0 =>
        match t0 with
        | Value.str event_kind_str =>
          match tuple.get? 1 with
          | none => (st, EventsResult.oob)
          | some t1 =>
            match t1 with
            | Value.num duration =>
              match event_kind_try_from_str event_kind_str with
              | none => (report_note st events_shape_note, EventsResult.rejected)
              | some kind =>
                let ru := max (1 / 100 : Rat) (randf st.rand_cursor)
                let st := { st with rand_cursor := st.rand_cursor + 1 }
                listAsEventsGo randf st rest (acc ++ [⟨kind, duration, ru⟩])
            | _ => (report_note st events_shape_note, EventsResult.rejected)
        | _ => (report_note st events_shape_note, EventsResult.rejected)
    | _ => (report_note st events_shape_note, EventsResult.rejected)

/-- Source: `Interpreter::list_as_events_deque`. -/
def list_as_events_deque (randf : Nat → Rat) (st : InterpState) (list : List Value) :
    InterpState × EventsResult :=
  listAsEventsGo randf st list []

/-- Source: `Interpreter::spawn_process_builtin`.  `ev` evaluates an argument
expression (the recursive call into `evaluate_expression`).  Faithful to the
source, the arity check only REPORTS the mismatch and falls through: with
more than 4 arguments the first four are evaluated and the process is spawned
anyway; with fewer than 4 the source indexes the argument vector out of
bounds (undefined behaviour), embedded as failure without effects. -/
def spawn_process_builtin (randf : Nat → Rat)
    (ev : InterpState → ExpressionKind → InterpState × Option Value)
    (st : InterpState) (args : List ExpressionKind) : InterpState × Option Value :=
  let st := if args.length != 4 then
              report_function_call_mismatched_argc st "spawn_process" args.length
            else st
  match args.get? 0, args.get? 1, args.get? 2, args.get? 3 with
  | some a0, some a1, some a2, some a3 =>
    match ev st a0 with
    | (st, none) => (st, none)
    | (st, some v0) =>
      match v0 with
      | Value.str process_name =>
        match ev st a1 with
        | (st, none) => (st, none)
        | (st, some v1) =>
          match v1 with
          | Value.num pid =>
            match ev st a2 with
            | (st, none) => (st, none)
            | (st, some v2) =>
              match v2 with
              | Value.num arrival =>
                match ev st a3 with
                | (st, none) => (st, none)
                | (st, some v3) =>
                  match v3 with
                  | Value.list list =>
                    match list_as_events_deque randf st list with
                    | (st, EventsResult.ok events) =>
                      ({ st with sim := emplace_process st.sim process_name pid arrival events },
                       some Value.monostate)
                    | (st, EventsResult.rejected) => (st, none)
                    | (st, EventsResult.oob) => (st, none)
                  | _ =>
                    let st := report_error st
                      "mismatched type for argument 3 of builtin spawn_process: expected type List of Tuple Event"
                    (report_note st events_shape_note, none)
              | _ =>
                (report_error st
                  "mismatched type for argument 2 of builting spawn_process: expected type int", none)
          | _ =>
            (report_error st
              "mismatched type for argument 1 of builting spawn_process: expected type int", none)
      | _ =>
        (report_error st
          "mismatched type for argument 0 of builting spawn_process: expected type string", none)
  | _, _, _, _ => (st, none)

/-- Source: `Interpreter::process_random_event` — a random kind (0 = Cpu,
1 = Io), a random duration in `[1, max_single_event_duration]` and a random
resource usage clamped below at 0.01; each draw advances the cursor. -/
def process_random_event (randn : Nat → Nat → Nat → Nat) (randf : Nat → Rat)
    (st : InterpState) : InterpState × Event :=
  let kind := if randn st.rand_cursor 0 1 = 0 then EventKind.Cpu else EventKind.Io
  let st := { st with rand_cursor := st.rand_cursor + 1 }
  let duration := randn st.rand_cursor 1 st.sim.max_single_event_duration
  let st := { st with rand_cursor := st.rand_cursor + 1 }
  let ru := max (1 / 100 : Rat) (randf st.rand_cursor)
  let st := { st with rand_cursor := st.rand_cursor + 1 }
  (st, ⟨kind, duration, ru⟩)

/-- The rejection-sampling loop of `spawn_random_process_builtin`: draw pids
in `[0, max_processes]` until one is not contained in `spawned_pids`.  The
source loop has no termination guarantee (it spins forever once all pids are
taken); the fuel makes that observable as `none`. -/
def pickFreshPid (randn : Nat → Nat → Nat → Nat) :
    Nat → InterpState → InterpState × Option Nat
  | 0, st => (st, none)
  | fuel + 1, st =>
    let pid := randn st.rand_cursor 0 st.sim.max_processes
    let st := { st with rand_cursor := st.rand_cursor + 1 }
    if st.spawned_pids.contains pid then pickFreshPid randn fuel st
    else (st, some pid)

/-- Collects `count` random events, advancing the cursor. -/
def randomEventsGo (randn : Nat → Nat → Nat → Nat) (randf : Nat → Rat) :
    Nat → InterpState → List Event → InterpState × List Event
  | 0, st, acc => (st, acc)
  | n + 1, st, acc =>
    let r := process_random_event randn randf st
    randomEventsGo randn randf n r.1 (acc ++ [r.2])

/-- Source: `Interpreter::spawn_random_process_builtin`.  Faithful to the
source, the arity check (against 0) only reports — under the name
"spawn_process", the copy-paste defect the spec notes — and falls through to
spawn regardless.  The drawn pid is recorded in the static `spawned_pids`. -/
def spawn_random_process_builtin (randn : Nat → Nat → Nat → Nat) (randf : Nat → Rat)
    (st : InterpState) (args : List ExpressionKind) : InterpState × Option Value :=
  let st := if args.length != 0 then
              report_function_call_mismatched_argc st "spawn_process" args.length
            else st
  match pickFreshPid randn (st.sim.max_processes + 1) st with
  | (st, none) => (st, none)
  | (st, some pid) =>
    let st := { st with spawned_pids := st.spawned_pids ++ [pid] }
    let arrival := randn st.rand_cursor 0 st.sim.max_arrival_time
    let st := { st with rand_cursor := st.rand_cursor + 1 }
    let events_count := randn st.rand_cursor 1 st.sim.max_events_per_process
    let st := { st with rand_cursor := st.rand_cursor + 1 }
    let r := randomEventsGo randn randf events_count st []
    let st := r.1
    ({ st with sim := emplace_process st.sim "Process" pid arrival r.2 },
     some Value.monostate)

/-- Source: `Interpreter::builtin_handler`. -/
def builtin_handler (randn : Nat → Nat → Nat → Nat) (randf : Nat → Rat)
    (ev : InterpState → ExpressionKind → InterpState × Option Value)
    (st : InterpState) (name : String) (args : List ExpressionKind) :
    InterpState × Option Value :=
  if name == "spawn_process" then spawn_process_builtin randf ev st args
  else if name == "spawn_random_process" then spawn_random_process_builtin randn randf st args
  else (st, some Value.monostate)

/-- Evaluates a list of expressions in order (the element loops of the
source's `list_visitor` and `tuple_visitor`), failing on the first failing
element. -/
def evalElements (ev : InterpState → ExpressionKind → InterpState × Option Value) :
    InterpState → List ExpressionKind → List Value → InterpState × Option (List Value)
  | st, [], acc => (st, some acc)
  | st, e :: rest, acc =>
    match ev st e with
    | (st, none) => (st, none)
    | (st, some v) => evalElements ev st rest (acc ++ [v])

/-- Source: the `constant_visitor` of `Interpreter::evaluate_expression`.
A `Variable` right-hand side only matters for the `schedule_policy` key; a
`Number` right-hand side assigns one of the five configuration fields — note
the `threads_count` assignment stores the parsed number UNCLAMPED.  An
unrecognised key reports a diagnostic and evaluation continues.  Any other
right-hand-side shape falls through to `Value()`. -/
def constant_visitor (ast : Ast) (st : InterpState) (name : String)
    (valueId : ExpressionId) : InterpState × Option Value :=
  match expression_by_id ast valueId with
  | ExpressionKind.var vname =>
    if name == "schedule_policy" then
      match try_policy_from_str vname with
      | none =>
        -- try_policy_from_str prints its own [ERROR] (scheduler) line
        ({ st with log := st.log ++
            ["ERROR (scheduler) failed to deduce schedule policy from: " ++ vname] }, none)
      | some policy =>
        ({ st with sim := switch_schedule_policy st.sim (named_scheduler_from_policy policy) },
         some Value.monostate)
    else (st, some Value.monostate)
  | ExpressionKind.number nlex =>
    if name == "max_processes" then
      match parse_number nlex with
      | none => (st, none)
      | some n => ({ st with sim := { st.sim with max_processes := n } }, some Value.monostate)
    else if name == "max_events_per_process" then
      match parse_number nlex with
      | none => (st, none)
      | some n => ({ st with sim := { st.sim with max_events_per_process := n } }, some Value.monostate)
    else if name == "max_single_event_duration" then
      match parse_number nlex with
      | none => (st, none)
      | some n => ({ st with sim := { st.sim with max_single_event_duration := n } }, some Value.monostate)
    else if name == "max_arrival_time" then
      match parse_number nlex with
      | none => (st, none)
      | some n => ({ st with sim := { st.sim with max_arrival_time := n } }, some Value.monostate)
    else if name == "threads_count" then
      match parse_number nlex with
      | none => (st, none)
      | some n => ({ st with sim := { st.sim with threads_count := n } }, some Value.monostate)
    else
      let st := report_error st ("invalid constant for current simulation: " ++ name)
      let st := report_note st
        "available constants are: max_processes, max_events_per_process, max_single_event_duration, max_arrival_time"
      (st, some Value.monostate)
  | _ => (st, some Value.monostate)

/-- Source: `Interpreter::evaluate_expression`, recursing through expression
ids with explicit fuel (the parser only produces finite acyclic ASTs; every
claim supplies ample fuel).  Failure of a sub-expression propagates as
`none` while the state — scheduler mutations and diagnostics — persists,
exactly as the shared scheduler and stderr do in the source. -/
def evaluate_expression (randn : Nat → Nat → Nat → Nat) (randf : Nat → Rat) (ast : Ast) :
    Nat → InterpState → ExpressionKind → InterpState × Option Value
  | 0, st, _ => (st, none)
  | fuel + 1, st, e =>
    match e with
    | ExpressionKind.call name args =>
      if is_builtin name then
        builtin_handler randn randf
          (fun st2 e2 => evaluate_expression randn randf ast fuel st2 e2)
          st name (args.map (expression_by_id ast))
      else
        -- the source asserts false ("not implemented") and returns Value()
        (st, some Value.monostate)
    | ExpressionKind.stringLiteral lit => (st, some (Value.str lit))
    | ExpressionKind.number lexeme =>
      match parse_number lexeme with
      | none => (st, none)
      | some n => (st, some (Value.num n))
    | ExpressionKind.listExpr elements =>
      match evalElements (fun st2 e2 => evaluate_expression randn randf ast fuel st2 e2)
          st (elements.map (expression_by_id ast)) [] with
      | (st, none) => (st, none)
      | (st, some vs) => (st, some (Value.list vs))
    | ExpressionKind.tuple elements =>
      match evalElements (fun st2 e2 => evaluate_expression randn randf ast fuel st2 e2)
          st (elements.map (expression_by_id ast)) [] with
      | (st, none) => (st, none)
      | (st, some vs) => (st, some (Value.list vs))
    | ExpressionKind.var name => (st, some (Value.str name))
    | ExpressionKind.constant name valueId => constant_visitor ast st name valueId
    | ExpressionKind.range a b =>
      match parse_number a with
      | none => (st, none)
      | some x =>
        match parse_number b with
        | none => (st, none)
        | some y => (st, some (Value.list [Value.num x, Value.num y]))
    | ExpressionKind.forE _ rangeId body =>
      match expression_by_id ast rangeId with
      | ExpressionKind.range a b =>
        match parse_number a with
        | none => (st, none)
        | some x =>
          match parse_number b with
          | none => (st, none)
          | some y =>
            let bodyExprs := body.map (expression_by_id ast)
            let st := (List.range (y - x)).foldl
              (fun st1 _ => bodyExprs.foldl
                (fun st2 ex => (evaluate_expression randn randf ast fuel st2 ex).1) st1)
              st
            (st, some Value.monostate)
      | _ => (st, none) -- Util::get<Range> fails: the range id is not a Range

/-- Source: `Interpreter::evaluate_statement` — a statement holds a
top-level expression id; the statement yields whether the expression
evaluated to a value. -/
def evaluate_statement (randn : Nat → Nat → Nat → Nat) (randf : Nat → Rat) (ast : Ast)
    (fuel : Nat) (st : InterpState) (stmt : ExpressionId) : InterpState × Option Bool :=
  let r := evaluate_expression randn randf ast fuel st (expression_by_id ast stmt)
  (r.1, some r.2.isSome)

/-- Source: the statement loop of `Interpreter::evaluate_ast`: every
top-level statement is executed in order (a failing expression yields a
diagnostic but does not stop the loop). -/
def evalAstGo (randn : Nat → Nat → Nat → Nat) (randf : Nat → Rat) (ast : Ast)
    (fuel : Nat) : List ExpressionId → InterpState → Bool → InterpState × Option Bool
  | [], st, failed => (st, some failed)
  | stmt :: rest, st, failed =>
    match evaluate_statement randn randf ast fuel st stmt with
    | (st, none) => (st, none)
    | (st, some b) => evalAstGo randn randf ast fuel rest st (failed || b)

/-- Source: `Interpreter::evaluate_ast`. -/
def evaluate_ast (randn : Nat → Nat → Nat → Nat) (randf : Nat → Rat) (ast : Ast)
    (fuel : Nat) (st : InterpState) : InterpState × Option Bool :=
  evalAstGo randn randf ast fuel ast.statements st false

/-- Number of queue slots (running, pending, ready, waiting, over all cores)
currently holding a process with the given pid.  Used to state the ownership
invariant of the spec. -/
def pid_live_count (s : Scheduler) (pid : Nat) : Nat :=
  (s.running.foldl
    (fun acc op => match op with
      | some p => if p.pid = pid then acc + 1 else acc
      | none => acc) 0)
  + (s.processes.foldl (fun acc q => acc + q.countP (fun p => p.pid = pid)) 0)
  + (s.ready.foldl (fun acc q => acc + q.countP (fun p => p.pid = pid)) 0)
  + (s.waiting.foldl (fun acc q => acc + q.countP (fun p => p.pid = pid)) 0)


/-! ## Concrete scenarios used by the claims -/

/-- The First-Come-First-Served named policy, as built by the factory. -/
def fcfs_named : NamedSchedulePolicy :=
  named_scheduler_from_policy SchedulePolicy.FirstComeFirstServed

/-- A fresh FCFS scheduler configured for a single core. -/
def one_core_fcfs : Scheduler := { mkScheduler fcfs_named with threads_count := 1 }

/-- C1 scenario: two processes with the same pid, both arriving at tick 0, on
the single core. -/
def c1_s0 : Scheduler :=
  emplace_process (emplace_process one_core_fcfs "A" 0 0 [⟨EventKind.Cpu, 1, 1⟩])
    "B" 0 0 [⟨EventKind.Cpu, 1, 1⟩]

/-- C1 scenario with the backup marked valid, exactly the state `step` hands
to its per-core loop. -/
def c1_sv : Scheduler := { c1_s0 with valid_backup := true }

/-- The first C1 process as it sits in the pending queue. -/
def c1_procA : Process := ⟨"A", 0, 0, [⟨EventKind.Cpu, 1, 1⟩], none, none⟩

/-- The second C1 process (same pid, same arrival). -/
def c1_procB : Process := ⟨"B", 0, 0, [⟨EventKind.Cpu, 1, 1⟩], none, none⟩

/-- C1 scenario after the first pending process has been dispatched to the
ready queue (the state in which the source loop re-examines the duplicate
forever). -/
def c1_stuck : Scheduler := dispatch_process_by_first_event 0 c1_procA c1_sv

/-- C2 scenario: the spec's scenario 1 — one core, a single process "A" with
pid 0, arrival 0 and one CPU event of duration 3 (the resource usage draw is
irrelevant to the claim and fixed at 1). -/
def c2_s0 : Scheduler := emplace_process one_core_fcfs "A" 0 0 [⟨EventKind.Cpu, 3, 1⟩]

/-- C3 scenario: one core, a single process with events Cpu 1, Io 1, Cpu 1 —
its second dispatch into CPU execution exercises the start_time assignment
with the field already set. -/
def c3_s0 : Scheduler :=
  emplace_process one_core_fcfs "M" 7 0
    [⟨EventKind.Cpu, 1, 1⟩, ⟨EventKind.Io, 1, 1⟩, ⟨EventKind.Cpu, 1, 1⟩]

/-- C4 scenario: one core, a single process that arrives at tick 1, so that
it is still pending after one step. -/
def c4_s0 : Scheduler := emplace_process one_core_fcfs "A" 0 1 [⟨EventKind.Cpu, 1, 1⟩]

/-- C6 scenario: two cores; A (pid 0, Cpu 5) and C (pid 2, Cpu 5, arrival 1)
land on core 0, B (pid 1, Cpu 1) on core 1.  When B finishes during step 2,
core 1 invokes the policy, which overwrites core 0's running slot. -/
def c6_s0 : Scheduler :=
  emplace_process (emplace_process (emplace_process
    { mkScheduler fcfs_named with threads_count := 2 }
    "A" 0 0 [⟨EventKind.Cpu, 5, 1⟩])
    "B" 1 0 [⟨EventKind.Cpu, 1, 1⟩])
    "C" 2 1 [⟨EventKind.Cpu, 5, 1⟩]

/-- C7 counterexample state: two cores, ready queue of core 0 empty, ready
queue of core 1 holding one process. -/
def c7_ready : List (List Process) :=
  (List.replicate MAX_THREADS ([] : List Process)).set 1 [⟨"B", 1, 0, [⟨EventKind.Cpu, 2, 1⟩], none, none⟩]

/-- C7 counterexample scheduler. -/
def c7_cex : Scheduler := { mkScheduler fcfs_named with threads_count := 2, ready := c7_ready }

/-- C7 witness state: two cores, both ready queues non-empty. -/
def c7_wit : Scheduler :=
  { mkScheduler fcfs_named with
      threads_count := 2,
      ready := [[⟨"A", 0, 0, [⟨EventKind.Cpu, 1, 1⟩], none, none⟩],
                [⟨"B", 1, 0, [⟨EventKind.Cpu, 2, 1⟩], none, none⟩],
                [], [], [], [], [], [], []] }

/-- A deterministic stand-in for the `Util::random_natural` oracle. -/
def natOracle0 : Nat → Nat → Nat → Nat := fun _ lo _ => lo

/-- A deterministic stand-in for the `Util::random_float` oracle. -/
def ratOracle1 : Nat → Rat := fun _ => 1

/-- A fresh interpreter state over a fresh single-policy scheduler. -/
def interp_st0 : InterpState := ⟨mkScheduler fcfs_named, [], [], 0⟩

/-- C5 counterexample program: the statement `threads_count = 20`. -/
def c5_ast : Ast :=
  ⟨[ExpressionKind.number "20", ExpressionKind.constant "threads_count" 0], [1]⟩

/-- C8 counterexample program: `spawn_process` called with five arguments
(statement 8), followed by a well-formed four-argument call (statement 9). -/
def c8_ast : Ast :=
  ⟨[ExpressionKind.stringLiteral "A",
    ExpressionKind.number "0",
    ExpressionKind.number "0",
    ExpressionKind.stringLiteral "Cpu",
    ExpressionKind.number "1",
    ExpressionKind.tuple [3, 4],
    ExpressionKind.listExpr [5],
    ExpressionKind.number "99",
    ExpressionKind.call "spawn_process" [0, 1, 2, 6, 7],
    ExpressionKind.call "spawn_process" [0, 7, 2, 6]],
   [8, 9]⟩

/-- Bool-level check that every element of the events argument that is a
value list has at least two entries. -/
def tuples_have_two (l : List Value) : Bool :=
  l.all fun v =>
    match v with
    | Value.list tuple => decide (2 ≤ tuple.length)
    | _ => true

/-! ## Helper lemmas -/

/-- Reading any index of a list whose elements all equal the default yields
the default. -/
theorem getD_eq_of_all {α : Type} (l : List α) (d : α) (h : ∀ x ∈ l, x = d) (i : Nat) :
    l.getD i d = d := by
  induction l generalizing i with
  | nil => simp [List.getD]
  | cons x xs ih =>
    cases i with
    | zero => simpa using h x (by simp)
    | succ j =>
      simpa using ih (fun y hy => h y (by simp [hy])) j

/-- Writing the default into a list whose elements all equal the default is
the identity. -/
theorem set_eq_of_all {α : Type} (l : List α) (d : α) (h : ∀ x ∈ l, x = d) (i : Nat) :
    l.set i d = l := by
  induction l generalizing i with
  | nil => simp
  | cons x xs ih =>
    cases i with
    | zero => simp [List.set, h x (by simp)]
    | succ j =>
      simp [List.set]
      exact ih (fun y hy => h y (by simp [hy])) j

/-- Writing one index leaves reads of other indices unchanged. -/
theorem getD_set_of_ne {α : Type} (l : List α) (i j : Nat) (a d : α) (h : i ≠ j) :
    (l.set i a).getD j d = l.getD j d := by
  induction l generalizing i j with
  | nil => simp
  | cons x xs ih =>
    cases i with
    | zero =>
      cases j with
      | zero => exact absurd rfl h
      | succ j2 => simp [List.set]
    | succ i2 =>
      cases j with
      | zero => simp [List.set]
      | succ j2 => simpa [List.set] using ih i2 j2 (by simpa using h)

/-- Reading back an in-bounds write. -/
theorem getD_set_self {α : Type} (l : List α) (i : Nat) (a d : α) (h : i < l.length) :
    (l.set i a).getD i d = a := by
  induction l generalizing i with
  | nil => simp at h
  | cons x xs ih =>
    cases i with
    | zero => simp [List.set]
    | succ i2 => simpa [List.set] using ih i2 (by simpa using h)

/-- Reading past the end of a list yields the default. -/
theorem getD_eq_default_of_le {α : Type} (l : List α) (i : Nat) (d : α)
    (h : l.length ≤ i) : l.getD i d = d := by
  induction l generalizing i with
  | nil => simp [List.getD]
  | cons x xs ih =>
    cases i with
    | zero => simp at h
    | succ j => simpa using ih j (by simpa using h)

/-- A read that differs from the default is in bounds. -/
theorem lt_length_of_getD_ne {α : Type} (l : List α) (i : Nat) (d : α)
    (h : l.getD i d ≠ d) : i < l.length := by
  by_contra hlt
  exact h (getD_eq_default_of_le l i d (by omega))


/-- Once the sidetrack loop reaches a process whose arrival equals the timer
but whose pid is not unique on the core, neither the iterator nor the state
changes, so the loop never terminates, whatever fuel it is given. -/
theorem sidetrackGo_stuck (tid : Nat) (p : Process) (kept rest : List Process)
    (s : Scheduler) (h1 : (p.arrival != s.timer) = false)
    (h2 : ensure_pid_is_unique s tid p.pid = false) :
    ∀ fuel, sidetrackGo tid fuel kept (p :: rest) s = none := by
  intro fuel
  induction fuel with
  | zero => rfl
  | succ n ih =>
    show (if (p.arrival != s.timer) then _
          else if !ensure_pid_is_unique s tid p.pid then
            sidetrackGo tid n kept (p :: rest) s
          else _) = none
    rw [h1, h2]
    simpa using ih

/-- Claim C1: for every step() and core, a pending process arriving now whose
pid collides with a live pid on the core (or whose event queue is empty) is
dropped after a diagnostic and the step() call still terminates normally.
The code instead never advances the loop iterator in the rejection branches
of sidetrack_processes, so the loop re-examines the same process forever: on
two same-pid processes arriving together, the sidetrack loop diverges for
every amount of fuel and step() never terminates (embedded as `none`). -/
theorem c1_duplicate_pid_diverges :
    (∀ fuel, sidetrackGo 0 fuel [] [c1_procA, c1_procB] c1_sv = none) ∧
    step c1_s0 = none := by
  constructor
  · intro fuel
    cases fuel with
    | zero => rfl
    | succ n =>
      show sidetrackGo 0 n [] [c1_procB] c1_stuck = none
      exact sidetrackGo_stuck 0 c1_procB [] [] c1_stuck (by decide) (by decide) n
  · decide

/-- Claim C2 counterexample: with one core and a single process spawned with
arrival 0 and one Cpu event of duration 3, after exactly 3 step() calls
complete() is still false (the claim asserts it is true): the process is
dispatched and scheduled during the first call, and its CPU event is first
decremented only during the second. -/
theorem c2_three_steps_not_complete :
    (stepN 3 c2_s0).map complete = some false := by decide

/-- Claim C2 as amended: the scenario completes after exactly 4 step()
calls, with finished of length 1, average_turnaround_time() = 0 (the code
never sets finish_time for a process that finishes on a CPU event, so the
turnaround sum skips it) and average_waiting_time() = 0. -/
theorem c2_amended_four_steps :
    (stepN 4 c2_s0).map complete = some true ∧
    (stepN 4 c2_s0).map (fun s => s.finished.length) = some 1 ∧
    (stepN 4 c2_s0).map average_turnaround_time = some 0 ∧
    (stepN 4 c2_s0).map average_waiting_time = some 0 := by decide

/-- Claim C3: start_time and finish_time are each written at most once and
never cleared.  The code violates both: on the process Cpu 1, Io 1, Cpu 1 the
first dispatch sets start_time = 0 (visible in the running slot after one
step), but the second CPU dispatch executes the assignment with the field
already set and thereby stores nullopt, clearing it; and the CPU-side finish
path never writes finish_time at all — after 4 steps the finished process
carries start_time = none and finish_time = none. -/
theorem c3_start_time_cleared_finish_time_unset :
    (stepN 1 c3_s0).map (fun s => (s.running.getD 0 none).map Process.start_time)
      = some (some (some 0)) ∧
    (stepN 4 c3_s0).map (fun s => s.finished.map fun p => (p.start_time, p.finish_time))
      = some [(none, none)] ∧
    (stepN 4 c3_s0).map complete = some true := by decide

/-- Claim C4: restart() leaves the pending multiset equal to the initially
spawned multiset and resets timer, throughput and finished.  The code resets
the counters and clears finished but repopulates the pending queues WITHOUT
clearing them first: after one step with a process of arrival 1 still
pending, restart() leaves two copies of it in pending[0] while the initial
multiset has one. -/
theorem c4_restart_duplicates_pending :
    (c4_s0.processes.getD 0 []).map Process.name = ["A"] ∧
    (step c4_s0).map (fun s => ((restart s).processes.getD 0 []).map Process.name)
      = some ["A", "A"] ∧
    (step c4_s0).map (fun s => ((restart s).timer, (restart s).throughput, (restart s).finished))
      = some (0, 0, []) := by decide

/-- Claim C6: each live process is owned by exactly one queue slot, and the
schedule policy never displaces a running process into no slot.  The code
violates this: in the two-core scenario, when core 1 falls idle during step 2
it invokes the FCFS policy, whose loop unconditionally overwrites core 0's
occupied running slot with the front of core 0's ready queue; process pid 0
(mid CPU event, not finished) is afterwards owned by no queue slot at all. -/
theorem c6_running_process_lost :
    (stepN 1 c6_s0).map (fun s => pid_live_count s 0) = some 1 ∧
    (stepN 2 c6_s0).map (fun s => pid_live_count s 0) = some 0 ∧
    (stepN 2 c6_s0).map (fun s => s.finished.map Process.pid) = some [1] := by decide

/-- Claim C5 counterexample: threads_count is claimed to be clamped to
[1, 9] on every assignment, but the interpreter's constant_visitor stores
the parsed number of the DSL statement `threads_count = 20` unclamped: the
resulting scheduler has threads_count = 20 > 9. -/
theorem c5_threads_count_not_clamped :
    (evaluate_ast natOracle0 ratOracle1 c5_ast 10 interp_st0).1.sim.threads_count = 20 ∧
    9 < (evaluate_ast natOracle0 ratOracle1 c5_ast 10 interp_st0).1.sim.threads_count := by
  decide

/-- Claim C5 as amended: threads_count is initialised to MAX_THREADS = 9 by
the constructor, and the DSL configuration key `threads_count` assigns the
parsed number directly, with no clamping: whatever non-negative integer the
statement carries becomes the new threads_count. -/
theorem c5_amended_unclamped_assignment :
    (∀ (ast : Ast) (st : InterpState) (vid : ExpressionId) (lexeme : String) (n : Nat),
      expression_by_id ast vid = ExpressionKind.number lexeme →
      parse_number lexeme = some n →
      (constant_visitor ast st "threads_count" vid).1.sim.threads_count = n) ∧
    (∀ policy, (mkScheduler policy).threads_count = MAX_THREADS) := by
  constructor
  · intro ast st vid lexeme n hexpr hparse
    simp [constant_visitor, hexpr, hparse]
  · intro policy
    rfl

/-- Claim C5 amended, witness: assigning 20 stores 20. -/
theorem c5_amended_unclamped_assignment_witness :
    expression_by_id c5_ast 0 = ExpressionKind.number "20" ∧
    parse_number "20" = some 20 ∧
    (constant_visitor c5_ast interp_st0 "threads_count" 0).1.sim.threads_count = 20 :=
  ⟨by decide, by decide,
    c5_amended_unclamped_assignment.1 c5_ast interp_st0 0 "20" 20 (by decide) (by decide)⟩

/-- Claim C7 counterexample: the claim says that whenever FCFS apply runs,
EVERY core with a non-empty ready queue has its front popped into its running
slot.  With core 0's ready queue empty and core 1's non-empty, the source
loop RETURNS at core 0, leaving core 1's ready queue and running slot
untouched. -/
theorem c7_fcfs_skips_later_cores :
    (c7_cex.ready.getD 1 []).length = 1 ∧
    1 < c7_cex.threads_count ∧
    (fcfs_apply c7_cex).running.getD 1 none = none ∧
    (fcfs_apply c7_cex).ready.getD 1 [] = c7_cex.ready.getD 1 [] := by decide

/-- Claim C8: a builtin call with mismatched argument count or type reports
a diagnostic and propagates a non-fatal failure instead of proceeding; in
particular spawn_process with other than exactly 4 arguments spawns nothing.
The code's arity check reports the diagnostic but is missing the early
return, so a five-argument spawn_process call evaluates its first four
arguments and spawns the process anyway (pid 0 lands in pending[0]); the
following well-formed statement also executes (pid 99 lands in pending[1]).
(With fewer than four arguments the source instead indexes the argument
vector out of bounds.) -/
theorem c8_arity_mismatch_still_spawns :
    ((evaluate_ast natOracle0 ratOracle1 c8_ast 10 interp_st0).1.sim.processes.getD 0 []).map
        Process.pid = [0] ∧
    ((evaluate_ast natOracle0 ratOracle1 c8_ast 10 interp_st0).1.sim.processes.getD 1 []).map
        Process.pid = [99] ∧
    "ERROR (interpreter) failed to interpret call to builtin spawn_process: expected 4 arguments, 5 were provided"
      ∈ (evaluate_ast natOracle0 ratOracle1 c8_ast 10 interp_st0).1.log := by decide

/-- Cores below the current scan position are never modified by the FCFS
loop. -/
theorem fcfsGo_preserves_lower : ∀ (k cur : Nat) (s : Scheduler) (t : Nat), t < cur →
    (fcfsGo k cur s).running.getD t none = s.running.getD t none ∧
    (fcfsGo k cur s).ready.getD t [] = s.ready.getD t [] := by
  intro k
  induction k with
  | zero => intro cur s t ht; exact ⟨rfl, rfl⟩
  | succ n ih =>
    intro cur s t ht
    cases hq : s.ready.getD cur [] with
    | nil =>
      constructor
      · simp only [fcfsGo, hq]
      · simp only [fcfsGo, hq]
    | cons p rest =>
      simp only [fcfsGo, hq]
      have h2 := ih (cur + 1)
        { s with ready := s.ready.set cur rest, running := s.running.set cur (some p) }
        t (by omega)
      refine ⟨?_, ?_⟩
      · rw [h2.1]
        exact getD_set_of_ne _ _ _ _ _ (by omega)
      · rw [h2.2]
        exact getD_set_of_ne _ _ _ _ _ (by omega)

/-- The FCFS scan, started at core `cur`, pops the front of the ready queue
into the running slot of every core `t` in `[cur, cur + k)` such that every
core of `[cur, t]` has a non-empty ready queue. -/
theorem fcfsGo_pops_front : ∀ (k cur : Nat) (s : Scheduler) (t : Nat),
    cur ≤ t → t < cur + k →
    (∀ u, cur ≤ u → u ≤ t → s.ready.getD u [] ≠ []) →
    t < s.running.length →
    (fcfsGo k cur s).running.getD t none = (s.ready.getD t []).head? ∧
    (fcfsGo k cur s).ready.getD t [] = (s.ready.getD t []).tail := by
  intro k
  induction k with
  | zero => intro cur s t h1 h2; omega
  | succ n ih =>
    intro cur s t h1 h2 hne hlen
    have hcur : s.ready.getD cur [] ≠ [] := hne cur (le_refl cur) h1
    cases hq : s.ready.getD cur [] with
    | nil => exact absurd hq hcur
    | cons p rest =>
      have hcurlt : cur < s.ready.length :=
        lt_length_of_getD_ne s.ready cur [] (by rw [hq]; simp)
      simp only [fcfsGo, hq]
      by_cases hct : cur = t
      · subst hct
        have hpres := fcfsGo_preserves_lower n (cur + 1)
          { s with ready := s.ready.set cur rest, running := s.running.set cur (some p) }
          cur (by omega)
        refine ⟨?_, ?_⟩
        · rw [hpres.1]
          show (s.running.set cur (some p)).getD cur none = (s.ready.getD cur []).head?
          rw [getD_set_self _ _ _ _ hlen, hq]
          rfl
        · rw [hpres.2]
          show (s.ready.set cur rest).getD cur [] = (s.ready.getD cur []).tail
          rw [getD_set_self _ _ _ _ hcurlt, hq]
          rfl
      · have hct2 : cur + 1 ≤ t := by omega
        have hready2 : ∀ u, cur + 1 ≤ u → u ≤ t →
            ({ s with ready := s.ready.set cur rest,
                      running := s.running.set cur (some p) } : Scheduler).ready.getD u [] ≠ [] := by
          intro u hu1 hu2
          show (s.ready.set cur rest).getD u [] ≠ []
          rw [getD_set_of_ne _ _ _ _ _ (by omega)]
          exact hne u (by omega) hu2
        have h3 := ih (cur + 1)
          { s with ready := s.ready.set cur rest, running := s.running.set cur (some p) }
          t hct2 (by omega) hready2 (by simpa using hlen)
        refine ⟨?_, ?_⟩
        · rw [h3.1]
          show ((s.ready.set cur rest).getD t []).head? = (s.ready.getD t []).head?
          rw [getD_set_of_ne _ _ _ _ _ (by omega)]
        · rw [h3.2]
          show ((s.ready.set cur rest).getD t []).tail = (s.ready.getD t []).tail
          rw [getD_set_of_ne _ _ _ _ _ (by omega)]

/-- Claim C7 as amended: FCFS apply scans cores in increasing index order and
returns at the first core whose ready queue is empty; for every core `t`
below threads_count such that every core up to and including `t` has a
non-empty ready queue, the front of `ready[t]` is popped and stored into
`running[t]` (overwriting any occupant).  Cores at or beyond the first empty
ready queue are left untouched by apply (step's safety net covers them). -/
theorem c7_amended_fcfs_scan_pops (s : Scheduler) (t : Nat)
    (h1 : t < s.threads_count)
    (h2 : ∀ u, u ≤ t → s.ready.getD u [] ≠ [])
    (h3 : t < s.running.length) :
    (fcfs_apply s).running.getD t none = (s.ready.getD t []).head? ∧
    (fcfs_apply s).ready.getD t [] = (s.ready.getD t []).tail :=
  fcfsGo_pops_front s.threads_count 0 s t (Nat.zero_le t) (by omega)
    (fun u _ hu2 => h2 u hu2) h3

/-- Claim C7 amended, witness: with both cores' ready queues non-empty, core
1's front is popped into its running slot. -/
theorem c7_amended_fcfs_scan_pops_witness :
    1 < c7_wit.threads_count ∧
    ((fcfs_apply c7_wit).running.getD 1 none = (c7_wit.ready.getD 1 []).head? ∧
     (fcfs_apply c7_wit).ready.getD 1 [] = (c7_wit.ready.getD 1 []).tail) :=
  ⟨by decide, c7_amended_fcfs_scan_pops c7_wit 1 (by decide)
    (fun u hu => by
      match u, hu with
      | 0, _ => decide
      | 1, _ => decide)
    (by decide)⟩

/-- When every value-list element of the input has at least two entries, the
event-conversion loop never reads out of bounds. -/
theorem listAsEventsGo_no_oob (randf : Nat → Rat) :
    ∀ (l : List Value) (st : InterpState) (acc : List Event),
      tuples_have_two l = true →
      (listAsEventsGo randf st l acc).2 ≠ EventsResult.oob := by
  intro l
  induction l with
  | nil => intro st acc h; simp [listAsEventsGo]
  | cons v rest ih =>
    intro st acc h
    rw [tuples_have_two, List.all_cons, Bool.and_eq_true] at h
    obtain ⟨hv, hrest⟩ := h
    cases v with
    | monostate => simp [listAsEventsGo]
    | str a => simp [listAsEventsGo]
    | num a => simp [listAsEventsGo]
    | list tuple =>
      have hlen : 2 ≤ tuple.length := by simpa using hv
      have h0 : tuple.get? 0 = some (tuple.get ⟨0, by omega⟩) := List.get?_eq_get (by omega)
      have h1 : tuple.get? 1 = some (tuple.get ⟨1, by omega⟩) := List.get?_eq_get (by omega)
      show (listAsEventsGo randf st (Value.list tuple :: rest) acc).2 ≠ EventsResult.oob
      rw [listAsEventsGo, h0, h1]
      dsimp only
      cases tuple.get ⟨0, by omega⟩ with
      | monostate => simp
      | num a => simp
      | list vs => simp
      | str kindStr =>
        dsimp only
        cases tuple.get ⟨1, by omega⟩ with
        | monostate => simp
        | str a => simp
        | list vs => simp
        | num duration =>
          dsimp only
          cases hk : event_kind_try_from_str kindStr with
          | none => simp
          | some kind => exact ih _ _ (by simpa [tuples_have_two] using hrest)

/-- Claim C10: in list_as_events_deque each element is validated only as
being a value list before its entries at indices 0 and 1 are read; for every
input whose value-list elements all have at least two entries the two
indexings are in bounds (the conversion never reads out of bounds), and no
length check exists: an element list of fewer than two values is indexed out
of bounds (undefined behaviour) rather than rejected with a diagnostic. -/
theorem c10_events_indexing :
    (∀ (randf : Nat → Rat) (st : InterpState) (l : List Value),
      tuples_have_two l = true →
      (list_as_events_deque randf st l).2 ≠ EventsResult.oob) ∧
    (∀ (randf : Nat → Rat) (st : InterpState),
      (list_as_events_deque randf st [Value.list [Value.str "Cpu"]]).2 = EventsResult.oob ∧
      (list_as_events_deque randf st [Value.list []]).2 = EventsResult.oob) := by
  constructor
  · intro randf st l h
    exact listAsEventsGo_no_oob randf l st [] h
  · intro randf st
    constructor
    · rfl
    · rfl

/-- Claim C10 witness: a well-shaped two-entry tuple converts without any
out-of-bounds read, and a one-entry tuple is reported as out of bounds. -/
theorem c10_events_indexing_witness :
    tuples_have_two [Value.list [Value.str "Cpu", Value.num 3]] = true ∧
    (list_as_events_deque ratOracle1 interp_st0 [Value.list [Value.str "Cpu", Value.num 3]]).2
      ≠ EventsResult.oob ∧
    (list_as_events_deque ratOracle1 interp_st0 [Value.list [Value.str "Cpu"]]).2
      = EventsResult.oob :=
  ⟨by decide,
   c10_events_indexing.1 ratOracle1 interp_st0 [Value.list [Value.str "Cpu", Value.num 3]]
     (by decide),
   (c10_events_indexing.2 ratOracle1 interp_st0).1⟩

/-- A false `any` means the predicate fails on every element. -/
theorem all_of_any_false {α : Type} (l : List α) (f : α → Bool) (h : l.any f = false) :
    ∀ x ∈ l, f x = false := by
  intro x hx
  by_contra hne
  rw [← ne_eq, Bool.ne_false_iff] at hne
  have := List.any_eq_true.mpr ⟨x, hx, hne⟩
  rw [h] at this
  cases this

/-- A complete scheduler has no running process and only empty pending,
ready and waiting queues. -/
theorem complete_fields (s : Scheduler) (h : complete s = true) :
    (∀ x ∈ s.running, x = none) ∧ (∀ q ∈ s.processes, q = []) ∧
    (∀ q ∈ s.ready, q = []) ∧ (∀ q ∈ s.waiting, q = []) := by
  simp only [complete, Bool.and_eq_true, Bool.not_eq_true'] at h
  obtain ⟨⟨⟨h1, h2⟩, h3⟩, h4⟩ := h
  refine ⟨fun x hx => ?_, fun q hq => ?_, fun q hq => ?_, fun q hq => ?_⟩
  · have := all_of_any_false _ _ h1 x hx
    simpa [Option.isNone_iff_eq_none] using this
  · have := all_of_any_false _ _ h2 q hq
    simpa using this
  · have := all_of_any_false _ _ h3 q hq
    simpa using this
  · have := all_of_any_false _ _ h4 q hq
    simpa using this

/-- On empty pending queues, arrival dispatch is the identity. -/
theorem sidetrack_complete_id (tid : Nat) (s : Scheduler)
    (hP : ∀ q ∈ s.processes, q = []) : sidetrack_processes tid s = some s := by
  have hp : s.processes.getD tid [] = [] := getD_eq_of_all _ _ hP tid
  have hset : s.processes.set tid [] = s.processes := set_eq_of_all _ _ hP tid
  rw [sidetrack_processes, hp]
  show some { s with processes := s.processes.set tid [] } = some s
  rw [hset]

/-- On empty waiting queues, waiting service is the identity. -/
theorem update_waiting_complete_id (tid : Nat) (s : Scheduler)
    (hW : ∀ q ∈ s.waiting, q = []) : update_waiting_list tid s = s := by
  have hw : s.waiting.getD tid [] = [] := getD_eq_of_all _ _ hW tid
  have hset : s.waiting.set tid [] = s.waiting := set_eq_of_all _ _ hW tid
  rw [update_waiting_list, hw]
  show { s with waiting := s.waiting.set tid [], finished := s.finished ++ [] } = s
  rw [hset, List.append_nil]

/-- With no running process, running service is the identity. -/
theorem update_running_complete_id (tid : Nat) (s : Scheduler)
    (hR : ∀ x ∈ s.running, x = none) : update_running tid s = s := by
  have hr : s.running.getD tid none = none := getD_eq_of_all _ _ hR tid
  rw [update_running, hr]

/-- On empty ready queues, the FCFS loop is the identity. -/
theorem fcfsGo_ready_empty_id (s : Scheduler) (hRd : ∀ q ∈ s.ready, q = []) :
    ∀ k cur, fcfsGo k cur s = s := by
  intro k
  cases k with
  | zero => intro cur; rfl
  | succ n =>
    intro cur
    have hq : s.ready.getD cur [] = [] := getD_eq_of_all _ _ hRd cur
    simp only [fcfsGo, hq]

/-- On empty ready queues, the Round-Robin loop is the identity. -/
theorem rrGo_ready_empty_id (q : Nat) (s : Scheduler) (hRd : ∀ x ∈ s.ready, x = []) :
    ∀ k cur, rrGo q k cur s = s := by
  intro k
  cases k with
  | zero => intro cur; rfl
  | succ n =>
    intro cur
    have hq : s.ready.getD cur [] = [] := getD_eq_of_all _ _ hRd cur
    simp only [rrGo, hq]

/-- On empty ready queues, every schedule callback is the identity. -/
theorem applySchedule_ready_empty_id (cb : ScheduleFn) (s : Scheduler)
    (hRd : ∀ x ∈ s.ready, x = []) : applySchedule cb s = s := by
  cases cb with
  | firstComeFirstServed => exact fcfsGo_ready_empty_id s hRd _ _
  | roundRobin q => exact rrGo_ready_empty_id q s hRd _ _

/-- With nothing running and empty ready queues, the policy phase is the
identity. -/
theorem policy_phase_complete_id (tid : Nat) (s : Scheduler)
    (hR : ∀ x ∈ s.running, x = none) (hRd : ∀ x ∈ s.ready, x = []) :
    policy_phase tid s = s := by
  have hrn : s.running.getD tid none = none := getD_eq_of_all _ _ hR tid
  have hrd : s.ready.getD tid [] = [] := getD_eq_of_all _ _ hRd tid
  have h1 : invoke_policy tid s = s := by
    rw [invoke_policy, applySchedule_ready_empty_id s.schedule_policy.callback s hRd, ite_self]
  rw [policy_phase, h1, safety_net, hrn, hrd]
  rfl

/-- With nothing running, the cpu observation is the identity. -/
theorem observe_cpu_complete_id (tid : Nat) (s : Scheduler)
    (hR : ∀ x ∈ s.running, x = none) : observe_cpu tid s = s := by
  have hrn : s.running.getD tid none = none := getD_eq_of_all _ _ hR tid
  rw [observe_cpu, hrn]

/-- On a complete state whose cpu_usage is already all zero, the zeroing is
the identity. -/
theorem zero_cpu_complete_id (s : Scheduler) (h : complete s = true)
    (hc : s.cpu_usage = List.replicate MAX_THREADS 0) : zero_cpu_on_complete s = s := by
  rw [zero_cpu_on_complete, if_pos h, ← hc]

/-- The bookkeeping phase does not change the queues or the completion
status. -/
theorem bookkeep_complete (s : Scheduler) : complete (bookkeep s) = complete s := rfl

/-- The bookkeeping phase does not change cpu_usage. -/
theorem bookkeep_cpu (s : Scheduler) : (bookkeep s).cpu_usage = s.cpu_usage := rfl

/-- The bookkeeping phase is idempotent. -/
theorem bookkeep_idem (s : Scheduler) : bookkeep (bookkeep s) = bookkeep s := rfl

/-- On a complete state with zeroed cpu_usage, a per-core step iteration
only refreshes the bookkeeping fields. -/
theorem stepThread_of_complete (s : Scheduler) (tid : Nat) (h : complete s = true)
    (hc : s.cpu_usage = List.replicate MAX_THREADS 0) :
    stepThread s tid = some (bookkeep s) := by
  obtain ⟨hR, hP, hRd, hW⟩ := complete_fields s h
  rw [stepThread, sidetrack_complete_id tid s hP]
  show some (bookkeep (zero_cpu_on_complete (observe_cpu tid (policy_phase tid
      (update_running tid (update_waiting_list tid s)))))) = some (bookkeep s)
  rw [update_waiting_complete_id tid s hW, update_running_complete_id tid s hR,
    policy_phase_complete_id tid s hR hRd, observe_cpu_complete_id tid s hR,
    zero_cpu_complete_id s h hc]

/-- On a complete state with zeroed cpu_usage, the per-core loop of step
only refreshes the bookkeeping fields. -/
theorem stepLoop_of_complete : ∀ (k : Nat) (tid : Nat) (s : Scheduler),
    complete s = true → s.cpu_usage = List.replicate MAX_THREADS 0 →
    stepLoop k tid s = some s ∨ stepLoop k tid s = some (bookkeep s) := by
  intro k
  induction k with
  | zero => intro tid s h hc; left; rfl
  | succ n ih =>
    intro tid s h hc
    show (stepThread s tid).bind (stepLoop n (tid + 1)) = some s ∨
      (stepThread s tid).bind (stepLoop n (tid + 1)) = some (bookkeep s)
    rw [stepThread_of_complete s tid h hc]
    show stepLoop n (tid + 1) (bookkeep s) = some s ∨
      stepLoop n (tid + 1) (bookkeep s) = some (bookkeep s)
    have hb : complete (bookkeep s) = true := by rw [bookkeep_complete]; exact h
    have hbc : (bookkeep s).cpu_usage = List.replicate MAX_THREADS 0 := by
      rw [bookkeep_cpu]; exact hc
    rcases ih (tid + 1) (bookkeep s) hb hbc with h1 | h1
    · right; exact h1
    · right; rw [h1, bookkeep_idem]

/-- On a complete state with zeroed cpu_usage, step succeeds and preserves
every queue, finished and cpu_usage; the result is again complete with
zeroed cpu_usage. -/
theorem step_frame_of_complete (s : Scheduler) (h : complete s = true)
    (hc : s.cpu_usage = List.replicate MAX_THREADS 0) :
    ∃ s2, step s = some s2 ∧ s2.running = s.running ∧ s2.processes = s.processes ∧
      s2.ready = s.ready ∧ s2.waiting = s.waiting ∧ s2.finished = s.finished ∧
      s2.cpu_usage = s.cpu_usage ∧ complete s2 = true ∧
      s2.cpu_usage = List.replicate MAX_THREADS 0 := by
  have hsv : complete { s with valid_backup := true } = true := h
  have hsvc : ({ s with valid_backup := true } : Scheduler).cpu_usage
      = List.replicate MAX_THREADS 0 := hc
  rcases stepLoop_of_complete s.threads_count 0
      { s with valid_backup := true } hsv hsvc with hL | hL
  · refine ⟨{ s with valid_backup := true, timer := s.timer + 1 }, ?_, rfl, rfl, rfl, rfl,
      rfl, rfl, h, hc⟩
    simp only [step]
    rw [hL]
    rfl
  · refine ⟨{ bookkeep { s with valid_backup := true } with timer := s.timer + 1 }, ?_, rfl,
      rfl, rfl, rfl, rfl, rfl, h, hc⟩
    simp only [step]
    rw [hL]
    rfl

/-- The zeroing phase does not change the completion status. -/
theorem zc_complete_eq (s : Scheduler) :
    complete (zero_cpu_on_complete s) = complete s := by
  rw [zero_cpu_on_complete]
  by_cases hx : complete s
  · rw [if_pos hx]
    rfl
  · rw [if_neg hx]

/-- On a complete state the zeroing phase zeroes cpu_usage. -/
theorem zc_cpu_of_complete (s : Scheduler) (h : complete s = true) :
    (zero_cpu_on_complete s).cpu_usage = List.replicate MAX_THREADS 0 := by
  rw [zero_cpu_on_complete, if_pos h]

/-- A per-core step iteration that ends in a complete state leaves cpu_usage
all zero (the `cpu_usage.fill(0)` of line 168 ran). -/
theorem stepThread_complete_cpu (s : Scheduler) (tid : Nat) (s1 : Scheduler)
    (h : stepThread s tid = some s1) (hcomp : complete s1 = true) :
    s1.cpu_usage = List.replicate MAX_THREADS 0 := by
  cases hs : sidetrack_processes tid s with
  | none => rw [stepThread, hs] at h; simp at h
  | some sA =>
    have h2 : stepThread s tid = some (bookkeep (zero_cpu_on_complete (observe_cpu tid
        (policy_phase tid (update_running tid (update_waiting_list tid sA)))))) := by
      rw [stepThread, hs]
      rfl
    rw [h2] at h
    have h3 := Option.some.inj h
    subst h3
    rw [bookkeep_cpu]
    apply zc_cpu_of_complete
    rw [bookkeep_complete, zc_complete_eq] at hcomp
    exact hcomp

/-- A non-trivial per-core loop that ends in a complete state leaves
cpu_usage all zero. -/
theorem stepLoop_complete_cpu : ∀ (k : Nat) (tid : Nat) (s s1 : Scheduler), 1 ≤ k →
    stepLoop k tid s = some s1 → complete s1 = true →
    s1.cpu_usage = List.replicate MAX_THREADS 0 := by
  intro k
  induction k with
  | zero => intro tid s s1 hk; omega
  | succ n ih =>
    intro tid s s1 hk h hcomp
    have h1 : (stepThread s tid).bind (stepLoop n (tid + 1)) = some s1 := h
    cases hst : stepThread s tid with
    | none => rw [hst] at h1; simp at h1
    | some s2 =>
      rw [hst] at h1
      have h4 : stepLoop n (tid + 1) s2 = some s1 := h1
      cases n with
      | zero =>
        have h5 : s2 = s1 := Option.some.inj h4
        subst h5
        exact stepThread_complete_cpu s tid s2 hst hcomp
      | succ m => exact ih (tid + 1) s2 s1 (by omega) h4 hcomp

/-- A step on a scheduler with at least one core that ends complete leaves
cpu_usage all zero: every reachable complete state observed between steps has
zero cpu_usage. -/
theorem step_complete_cpu (s s1 : Scheduler) (ht : 1 ≤ s.threads_count)
    (h : step s = some s1) (hcomp : complete s1 = true) :
    s1.cpu_usage = List.replicate MAX_THREADS 0 := by
  simp only [step] at h
  cases hL : stepLoop s.threads_count 0 { s with valid_backup := true } with
  | none => rw [hL] at h; simp at h
  | some r =>
    rw [hL] at h
    have h2 : some { r with timer := r.timer + 1 } = some s1 := h
    have h3 := Option.some.inj h2
    rw [← h3]
    show r.cpu_usage = List.replicate MAX_THREADS 0
    have hr : complete r = true := by rw [← h3] at hcomp; exact hcomp
    exact stepLoop_complete_cpu s.threads_count 0 { s with valid_backup := true } r ht hL hr

/-- Claim C9: once complete() is true, further step() calls leave finished,
cpu_usage and every queue (pending, ready, waiting, every running slot)
unchanged.  First part: on any complete state with all-zero cpu_usage, any
number of further steps succeeds and preserves finished, all four queue
families and cpu_usage.  Second part: the all-zero premise holds in every
complete state the driver can observe — a step over at least one core that
ends complete always leaves cpu_usage all zero (and a fresh scheduler starts
all zero), so the premise is no restriction on reachable states. -/
theorem c9_complete_frames_further_steps :
    (∀ (s : Scheduler) (n : Nat), complete s = true →
        s.cpu_usage = List.replicate MAX_THREADS 0 →
        ∃ s2, stepN n s = some s2 ∧ s2.finished = s.finished ∧ s2.running = s.running ∧
          s2.ready = s.ready ∧ s2.waiting = s.waiting ∧ s2.processes = s.processes ∧
          s2.cpu_usage = s.cpu_usage) ∧
    (∀ (s s1 : Scheduler), 1 ≤ s.threads_count → step s = some s1 → complete s1 = true →
        s1.cpu_usage = List.replicate MAX_THREADS 0) := by
  constructor
  · intro s n
    induction n generalizing s with
    | zero => intro h hc; exact ⟨s, rfl, rfl, rfl, rfl, rfl, rfl, rfl⟩
    | succ m ih =>
      intro h hc
      obtain ⟨s2, hstep, f1, f2, f3, f4, f5, f6, hcomp2, hcz2⟩ := step_frame_of_complete s h hc
      obtain ⟨s3, hsN, g1, g2, g3, g4, g5, g6⟩ := ih s2 hcomp2 hcz2
      refine ⟨s3, ?_, ?_, ?_, ?_, ?_, ?_, ?_⟩
      · show (step s).bind (stepN m) = some s3
        rw [hstep]
        exact hsN
      · rw [g1, f5]
      · rw [g2, f1]
      · rw [g3, f3]
      · rw [g4, f4]
      · rw [g5, f2]
      · rw [g6, f6]
  · exact step_complete_cpu

/-- Claim C9 witness: a fresh (complete, zero-usage) scheduler is preserved
by two further steps, and a one-core step ending complete yields zero
cpu_usage. -/
theorem c9_complete_frames_further_steps_witness :
    (complete (mkScheduler fcfs_named) = true ∧
      ∃ s2, stepN 2 (mkScheduler fcfs_named) = some s2 ∧
        s2.finished = (mkScheduler fcfs_named).finished ∧
        s2.running = (mkScheduler fcfs_named).running ∧
        s2.ready = (mkScheduler fcfs_named).ready ∧
        s2.waiting = (mkScheduler fcfs_named).waiting ∧
        s2.processes = (mkScheduler fcfs_named).processes ∧
        s2.cpu_usage = (mkScheduler fcfs_named).cpu_usage) ∧
    ({ one_core_fcfs with valid_backup := true, timer := 1 } : Scheduler).cpu_usage
      = List.replicate MAX_THREADS 0 :=
  ⟨⟨by decide,
    c9_complete_frames_further_steps.1 (mkScheduler fcfs_named) 2 (by decide) rfl⟩,
   c9_complete_frames_further_steps.2 one_core_fcfs
     { one_core_fcfs with valid_backup := true, timer := 1 }
     (by decide) (by decide) (by decide)⟩

end SimOs
